import Mathlib

/-!
Verification of the file-action layer of a cloud file-storage application.

The development shallowly embeds the server-side action functions of
`src/lib/actions/file.actions.ts` and the pure helpers of `src/lib/utils.ts`
(`getFileType`, `constructFileUrl`) into Lean:

* JavaScript strings are modelled as `List Char` (`Str`), with the string
  operations the source uses (`split`, `pop`, `toLowerCase`, JS relational
  comparison) implemented over `List Char` so that everything reduces in the
  kernel.
* The Appwrite storage and database clients are external collaborators; each
  action function is parameterised by an environment describing the outcome
  of every remote call it makes (success, or the rejection it throws), and
  returns both its result (`Except` mirrors throw/return) and the trace of
  store calls it issued, in order.
* `parseStringify` (a JSON round-trip of a plain record) is the identity on
  the records modelled here and is therefore dropped; `revalidatePath` only
  touches the Next.js cache and is likewise dropped.
-/

/-- JavaScript strings, modelled as their list of characters. -/
abbrev Str := List Char

/-- Coerce a Lean string literal to the `Str` model. -/
def str (s : String) : Str := s.toList

/-- JS `s.split(sep)` for a single-character separator: splitting the empty
string yields `[""]`, and adjacent separators yield empty fields, exactly as
in JavaScript. -/
def splitOnChar (sep : Char) : Str → List Str
  | [] => [[]]
  | c :: cs =>
    let rest := splitOnChar sep cs
    if c = sep then [] :: rest
    else
      match rest with
      | [] => [[c]]
      | r :: rs => (c :: r) :: rs

/-- ASCII lowercasing of one character (the fragment of JS
`String.prototype.toLowerCase` relevant to file extensions). -/
def toLowerChar (c : Char) : Char :=
  if 'A' ≤ c ∧ c ≤ 'Z' then Char.ofNat (c.toNat + 32) else c

/-- JS `s.toLowerCase()` over the `Str` model. -/
def toLowerStr (s : Str) : Str := s.map toLowerChar

/-- JS `a < b` on strings: lexicographic comparison by code unit.  The ISO
timestamps compared in `getTotalSpaceUsed` are `Date`-parsed in the source;
on the fixed-format timestamps the metadata store produces, `Date` order and
lexicographic order agree (spec §4.3), so the embedding compares lexically. -/
def strLt : Str → Str → Bool
  | [], [] => false
  | [], _ :: _ => true
  | _ :: _, [] => false
  | a :: as, b :: bs => if a < b then true else if b < a then false else strLt as bs

/-- JS `needle` is a prefix of `hay`. -/
def startsWithStr : Str → Str → Bool
  | [], _ => true
  | _ :: _, [] => false
  | a :: as, b :: bs => a = b && startsWithStr as bs

/-- JS substring containment (`hay.includes(needle)`), the semantics of an
Appwrite `Query.contains` on a string attribute. -/
def containsSub (needle : Str) : Str → Bool
  | [] => startsWithStr needle []
  | c :: cs => startsWithStr needle (c :: cs) || containsSub needle cs

/-- Extension → "document" table of `getFileType` (`src/lib/utils.ts`). -/
def documentExtensions : List Str :=
  [str "pdf", str "doc", str "docx", str "txt", str "xls", str "xlsx",
   str "csv", str "rtf", str "ods", str "ppt", str "odp", str "md",
   str "html", str "htm", str "epub", str "pages", str "fig", str "psd",
   str "ai", str "indd", str "xd", str "sketch", str "afdesign", str "afphoto"]

/-- Extension → "image" table of `getFileType`. -/
def imageExtensions : List Str :=
  [str "jpg", str "jpeg", str "png", str "gif", str "bmp", str "svg", str "webp"]

/-- Extension → "video" table of `getFileType`. -/
def videoExtensions : List Str :=
  [str "mp4", str "avi", str "mov", str "mkv", str "webm"]

/-- Extension → "audio" table of `getFileType`. -/
def audioExtensions : List Str :=
  [str "mp3", str "wav", str "ogg", str "flac"]

/-- Result record of `getFileType`:
`{ type: string, extension: string }`. -/
structure FileTypeResult where
  type : Str
  extension : Str
deriving DecidableEq, Repr

/-- `getFileType` (`src/lib/utils.ts` lines 33-59):
`fileName.split(".").pop()?.toLowerCase()` (for a non-empty array `pop` is
the last element, so it is only falsy when it is the empty string), then the
category tables, defaulting to `other` with the extension kept. -/
def getFileType (fileName : Str) : FileTypeResult :=
  let extension := toLowerStr ((splitOnChar '.' fileName).getLastD [])
  if extension = [] then ⟨str "other", []⟩
  else if extension ∈ documentExtensions then ⟨str "document", extension⟩
  else if extension ∈ imageExtensions then ⟨str "image", extension⟩
  else if extension ∈ videoExtensions then ⟨str "video", extension⟩
  else if extension ∈ audioExtensions then ⟨str "audio", extension⟩
  else ⟨str "other", extension⟩

/-- The binary maximum induced by `strLt`. -/
def maxStr (a b : Str) : Str := if strLt a b then b else a

/-- `totalSpace[fileType].latestDate` update of `getTotalSpaceUsed`
(`file.actions.ts` lines 248-253): replace when the stored date is empty or
the record's `$updatedAt` is strictly later. -/
def updateLatest (latestDate updatedAt : Str) : Str :=
  if latestDate = [] ∨ strLt latestDate updatedAt then updatedAt else latestDate

/-- The `FileType` union of the source (`type FileType = "document" | "image"
| "video" | "audio" | "other"`); `getTotalSpaceUsed` casts each record's
stored `type` string to this union before indexing `totalSpace`. -/
inductive FileType
  | document
  | image
  | video
  | audio
  | other
deriving DecidableEq, Repr

/-- One per-category entry of `totalSpace`: `{ size: 0, latestDate: "" }`. -/
structure CategorySpace where
  size : Nat
  latestDate : Str
deriving DecidableEq, Repr

/-- The `totalSpace` accumulator of `getTotalSpaceUsed`
(`file.actions.ts` lines 233-241). -/
structure TotalSpace where
  image : CategorySpace
  document : CategorySpace
  video : CategorySpace
  audio : CategorySpace
  other : CategorySpace
  used : Nat
  all : Nat
deriving DecidableEq, Repr

/-- Initial `totalSpace` value: zero everywhere, `all` the fixed 2 GB bucket
capacity. -/
def initialTotalSpace : TotalSpace :=
  { image := ⟨0, []⟩
    document := ⟨0, []⟩
    video := ⟨0, []⟩
    audio := ⟨0, []⟩
    other := ⟨0, []⟩
    used := 0
    all := 2 * 1024 * 1024 * 1024 }

/-- The projection of a metadata-store document that the aggregation loop of
`getTotalSpaceUsed` reads: `file.type as FileType`, `file.size`, and
`file.$updatedAt`. -/
structure SummaryFile where
  type : FileType
  size : Nat
  updatedAt : Str
deriving DecidableEq, Repr

/-- One iteration of the `files.documents.forEach` loop of
`getTotalSpaceUsed` (`file.actions.ts` lines 243-254): add the record's size
to its category and to `used`, and push the category's `latestDate` forward
when the record's `$updatedAt` is strictly later (or the slot is empty). -/
def addFile (ts : TotalSpace) (f : SummaryFile) : TotalSpace :=
  match f.type with
  | .image =>
    { ts with image := ⟨ts.image.size + f.size, updateLatest ts.image.latestDate f.updatedAt⟩
              used := ts.used + f.size }
  | .document =>
    { ts with document := ⟨ts.document.size + f.size, updateLatest ts.document.latestDate f.updatedAt⟩
              used := ts.used + f.size }
  | .video =>
    { ts with video := ⟨ts.video.size + f.size, updateLatest ts.video.latestDate f.updatedAt⟩
              used := ts.used + f.size }
  | .audio =>
    { ts with audio := ⟨ts.audio.size + f.size, updateLatest ts.audio.latestDate f.updatedAt⟩
              used := ts.used + f.size }
  | .other =>
    { ts with other := ⟨ts.other.size + f.size, updateLatest ts.other.latestDate f.updatedAt⟩
              used := ts.used + f.size }

/-- The pure aggregation performed by `getTotalSpaceUsed` over the records
the query returned (spec §4.3 `summarize`). -/
def summarize (files : List SummaryFile) : TotalSpace :=
  files.foldl addFile initialTotalSpace

/-- The `appwriteConfig` identifiers read from the environment
(`src/lib/appwrite/config`): the model passes them explicitly. -/
structure AppwriteConfig where
  endpoint : Str
  projectId : Str
  databaseId : Str
  filesCollectionId : Str
  bucketId : Str
deriving DecidableEq, Repr

/-- `constructFileUrl` (`src/lib/utils.ts` lines 178-180). -/
def constructFileUrl (cfg : AppwriteConfig) (bucketFileId : Str) : Str :=
  cfg.endpoint ++ str "/storage/buckets/" ++ cfg.bucketId ++ str "/files/" ++
    bucketFileId ++ str "/view?project=" ++ cfg.projectId

/-- The rejections the Appwrite SDK calls can throw, treated opaquely by the
source (`handleError` logs and rethrows); the `code` payload only serves to
distinguish concrete instances. -/
inductive StoreErr
  | blobWriteErr (code : Nat)
  | metaWriteErr (code : Nat)
  | blobDeleteErr (code : Nat)
  | metaDeleteErr (code : Nat)
deriving DecidableEq, Repr

/-- The storage file returned by `storage.createFile`: Appwrite stores the
upload under a fresh id, keeping the file's name and byte size
(`$id`, `name`, `sizeOriginal`). -/
structure BucketFile where
  id : Str
  name : Str
  sizeOriginal : Nat
deriving DecidableEq, Repr

/-- The caller-supplied file of `uploadFile` (`UploadFileProps.file`): the
fields the action reads are its name and its byte size. -/
structure FileInput where
  name : Str
  size : Nat
deriving DecidableEq, Repr

/-- The `fileDocument` metadata record built and stored by `uploadFile`
(`file.actions.ts` lines 90-100). -/
structure FileDoc where
  type : Str
  name : Str
  url : Str
  extension : Str
  size : Nat
  owner : Str
  accountId : Str
  users : List Str
  bucketFileId : Str
deriving DecidableEq, Repr

/-- `fileDocument` construction (`file.actions.ts` lines 90-100). -/
def mkFileDocument (cfg : AppwriteConfig) (bucketFile : BucketFile)
    (ownerId accountId : Str) : FileDoc :=
  { type := (getFileType bucketFile.name).type
    name := bucketFile.name
    url := constructFileUrl cfg bucketFile.id
    extension := (getFileType bucketFile.name).extension
    size := bucketFile.sizeOriginal
    owner := ownerId
    accountId := accountId
    users := []
    bucketFileId := bucketFile.id }

/-- One remote call issued by `uploadFile`, recorded in order of issue. -/
inductive StoreAction
  | createFile (bucketId fileId name : Str) (size : Nat)
  | createDocument (databaseId collectionId : Str) (doc : FileDoc)
  | deleteFile (bucketId fileId : Str)
deriving DecidableEq, Repr

/-- Outcomes of the remote calls `uploadFile` may make: `none` means the call
succeeds, `some e` that it rejects with `e`.  `bucketFileId` is the
`ID.unique()` the storage upload is stored under. -/
structure UploadEnv where
  createFileErr : Option StoreErr
  bucketFileId : Str
  createDocumentErr : Option StoreErr
  deleteFileErr : Option StoreErr
deriving DecidableEq, Repr

/-- `uploadFile` (`file.actions.ts` lines 71-122).

* `storage.createFile` throwing is caught by the outer `catch`, whose
  `handleError` rethrows the same error.
* On storage success the `fileDocument` is built and
  `databases.createDocument` is called.  Its `.catch` handler awaits
  `storage.deleteFile` and then calls `handleError(error, ...)`, which
  rethrows the metadata error; if the compensating delete itself rejects,
  that rejection escapes the handler before `handleError` runs, so the
  delete error is what reaches (and is rethrown by) the outer `catch`.
* On full success the created document is returned through
  `parseStringify` (identity here). -/
def uploadFile (cfg : AppwriteConfig) (env : UploadEnv) (file : FileInput)
    (ownerId accountId : Str) : Except StoreErr FileDoc × List StoreAction :=
  let act1 := StoreAction.createFile cfg.bucketId env.bucketFileId file.name file.size
  match env.createFileErr with
  | some e => (Except.error e, [act1])
  | none =>
    let bucketFile : BucketFile := ⟨env.bucketFileId, file.name, file.size⟩
    let fileDocument := mkFileDocument cfg bucketFile ownerId accountId
    let act2 := StoreAction.createDocument cfg.databaseId cfg.filesCollectionId fileDocument
    match env.createDocumentErr with
    | none => (Except.ok fileDocument, [act1, act2])
    | some e =>
      let act3 := StoreAction.deleteFile cfg.bucketId bucketFile.id
      match env.deleteFileErr with
      | none => (Except.error e, [act1, act2, act3])
      | some e' => (Except.error e', [act1, act2, act3])

/-- The fields of the current user's account document that `createQueries`
reads (`currentUser.$id`, `currentUser.email`). -/
structure UserDoc where
  id : Str
  email : Str
deriving DecidableEq, Repr

/-- The Appwrite query constructors used by `file.actions.ts`.  Appwrite's
`Query.contains` accepts a single string as shorthand for a one-element
array, so both call sites use the list form here. -/
inductive FileQuery
  | orQ (qs : List FileQuery)
  | equalQ (attr : Str) (values : List Str)
  | containsQ (attr : Str) (values : List Str)
  | limitQ (n : Nat)
  | orderAscQ (attr : Str)
  | orderDescQ (attr : Str)
deriving Repr

/-- `createQueries` (`file.actions.ts` lines 16-42).  JS truthiness: the
`searchText` and `sort` guards ask for a non-empty string, the `limit` guard
for a present, non-zero number.  `sort.split("-")` destructured to
`[sortBy, orderBy]` takes the first two fields of the full split. -/
def createQueries (currentUser : UserDoc) (types : List Str) (searchText : Str)
    (sort : Str) (limit : Option Nat) : List FileQuery :=
  let queries := [FileQuery.orQ
    [FileQuery.equalQ (str "owner") [currentUser.id],
     FileQuery.containsQ (str "users") [currentUser.email]]]
  let queries := if types.length > 0 then queries ++ [FileQuery.equalQ (str "type") types] else queries
  let queries := if searchText ≠ [] then queries ++ [FileQuery.containsQ (str "name") [searchText]] else queries
  let queries :=
    match limit with
    | some n => if n ≠ 0 then queries ++ [FileQuery.limitQ n] else queries
    | none => queries
  if sort ≠ [] then
    let parts := splitOnChar '-' sort
    let sortBy := parts.headD []
    queries ++ [if parts.get? 1 = some (str "asc")
      then FileQuery.orderAscQ sortBy else FileQuery.orderDescQ sortBy]
  else queries

/-- String-valued attribute lookup on a stored file document, per the
collection schema the queries address. -/
def docStrVal (d : FileDoc) (attr : Str) : Option Str :=
  if attr = str "type" then some d.type
  else if attr = str "name" then some d.name
  else if attr = str "url" then some d.url
  else if attr = str "extension" then some d.extension
  else if attr = str "owner" then some d.owner
  else if attr = str "accountId" then some d.accountId
  else if attr = str "bucketFileId" then some d.bucketFileId
  else none

mutual

/-- Whether a stored document satisfies one query, with Appwrite's
server-side semantics for this schema: `equal` matches when the attribute
equals one of the listed values; `contains` on the array attribute `users`
matches when some listed value is an element, and on a string attribute when
some listed value is a substring; `limit` and the two `orderBy` queries do
not exclude documents (they cap and reorder the result, handled in
`listDocuments`). -/
def matchesFilter (d : FileDoc) : FileQuery → Bool
  | .orQ qs => matchesAnyFilter d qs
  | .equalQ attr values =>
    match docStrVal d attr with
    | some v => values.any (fun w => w = v)
    | none => false
  | .containsQ attr values =>
    if attr = str "users" then values.any (fun w => decide (w ∈ d.users))
    else
      match docStrVal d attr with
      | some v => values.any (fun w => containsSub w v)
      | none => false
  | .limitQ _ => true
  | .orderAscQ _ => true
  | .orderDescQ _ => true

/-- Disjunction over the branches of an `or` query. -/
def matchesAnyFilter (d : FileDoc) : List FileQuery → Bool
  | [] => false
  | q :: qs => matchesFilter d q || matchesAnyFilter d qs

end

/-- First `limit` query in the list, if any. -/
def firstLimit : List FileQuery → Option Nat
  | [] => none
  | FileQuery.limitQ n :: _ => some n
  | _ :: qs => firstLimit qs

/-- `databases.listDocuments` over an in-memory metadata store: keep the
documents matching every query, then apply a `limit` cap.  The `orderBy`
queries only permute the result and are irrelevant to the membership and
emptiness properties stated below, so the model leaves the stored order. -/
def listDocuments (qs : List FileQuery) (docs : List FileDoc) : List FileDoc :=
  let filtered := docs.filter (fun d => qs.all (fun q => matchesFilter d q))
  match firstLimit qs with
  | some n => filtered.take n
  | none => filtered

/-- Outcomes of the two remote calls `deleteFile` makes. -/
structure DeleteEnv where
  deleteDocumentErr : Option StoreErr
  deleteFileErr : Option StoreErr
deriving DecidableEq, Repr

/-- One remote call issued by `deleteFile`, in order of issue. -/
inductive DeleteAction
  | deleteDocument (databaseId collectionId fileId : Str)
  | deleteFile (bucketId fileId : Str)
deriving DecidableEq, Repr

/-- The `{ status: "success" }` value `deleteFile` returns. -/
structure DeleteStatus where
  status : Str
deriving DecidableEq, Repr

/-- `deleteFile` (`file.actions.ts` lines 195-218): delete the metadata
document first; a rejection is rethrown by the `catch`/`handleError` and no
storage call is made.  On success Appwrite returns an (always truthy) empty
object, so the `if (deletedFile)` guard is taken and the blob is deleted; a
rejection there is rethrown likewise.  Only when both calls succeed is
`{ status: "success" }` returned. -/
def deleteFile (cfg : AppwriteConfig) (env : DeleteEnv)
    (fileId bucketFileId : Str) : Except StoreErr DeleteStatus × List DeleteAction :=
  let act1 := DeleteAction.deleteDocument cfg.databaseId cfg.filesCollectionId fileId
  match env.deleteDocumentErr with
  | some e => (Except.error e, [act1])
  | none =>
    let act2 := DeleteAction.deleteFile cfg.bucketId bucketFileId
    match env.deleteFileErr with
    | some e => (Except.error e, [act1, act2])
    | none => (Except.ok ⟨str "success"⟩, [act1, act2])

/-- The owner-or-shared access predicate `createQueries` always places first
(`file.actions.ts` lines 22-27). -/
def accessQuery (u : UserDoc) : FileQuery :=
  FileQuery.orQ
    [FileQuery.equalQ (str "owner") [u.id],
     FileQuery.containsQ (str "users") [u.email]]

/-- A concrete configuration for instantiating the theorems below. -/
def cfg0 : AppwriteConfig :=
  ⟨str "https://cloud.example/v1", str "proj", str "db", str "files", str "bucket"⟩

/-- A concrete current user. -/
def user0 : UserDoc := ⟨str "u1", str "u1@x.com"⟩

/-- A concrete stored document owned by a different user and shared with
nobody. -/
def otherDoc : FileDoc :=
  { type := str "document"
    name := str "secret.pdf"
    url := str "u"
    extension := str "pdf"
    size := 3
    owner := str "u2"
    accountId := str "acc2"
    users := []
    bucketFileId := str "bf1" }

theorem strLt_asymm : ∀ {a b : Str}, strLt a b = true → strLt b a = false := by
  intro a
  induction a with
  | nil => intro b _; cases b <;> simp [strLt]
  | cons x xs ih =>
    intro b h
    cases b with
    | nil => simp [strLt] at h
    | cons y ys =>
      simp only [strLt] at h ⊢
      rcases lt_trichotomy x y with hxy | hxy | hxy
      · simp [hxy, not_lt_of_lt hxy]
      · subst hxy
        simp only [lt_irrefl, if_false] at h ⊢
        exact ih h
      · simp [hxy, not_lt_of_lt hxy] at h

theorem strLt_conn : ∀ {a b : Str}, strLt a b = false → strLt b a = false → a = b := by
  intro a
  induction a with
  | nil => intro b h _; cases b <;> simp_all [strLt]
  | cons x xs ih =>
    intro b h h'
    cases b with
    | nil => simp [strLt] at h'
    | cons y ys =>
      simp only [strLt] at h h'
      rcases lt_trichotomy x y with hxy | hxy | hxy
      · simp [hxy] at h
      · subst hxy
        simp only [lt_irrefl, if_false] at h h'
        exact congrArg (x :: ·) (ih h h')
      · simp [hxy] at h'

theorem strLt_trans : ∀ {a b c : Str},
    strLt a b = true → strLt b c = true → strLt a c = true := by
  intro a
  induction a with
  | nil =>
    intro b c hab hbc
    cases b with
    | nil => simpa using hbc
    | cons y ys => cases c with
      | nil => simp [strLt] at hbc
      | cons z zs => simp [strLt]
  | cons x xs ih =>
    intro b c hab hbc
    cases b with
    | nil => simp [strLt] at hab
    | cons y ys =>
      cases c with
      | nil => simp [strLt] at hbc
      | cons z zs =>
        simp only [strLt] at hab hbc ⊢
        rcases lt_trichotomy x y with hxy | hxy | hxy
        · rcases lt_trichotomy y z with hyz | hyz | hyz
          · simp [lt_trans hxy hyz]
          · subst hyz; simp [hxy]
          · simp [hyz, not_lt_of_lt hyz] at hbc
        · subst hxy
          rcases lt_trichotomy x z with hxz | hxz | hxz
          · simp [hxz]
          · subst hxz
            simp only [lt_irrefl, if_false] at hab hbc ⊢
            exact ih hab hbc
          · simp [hxz, not_lt_of_lt hxz] at hbc
        · simp [hxy, not_lt_of_lt hxy] at hab

theorem maxStr_comm (a b : Str) : maxStr a b = maxStr b a := by
  unfold maxStr
  rcases hab : strLt a b with _ | _
  · rcases hba : strLt b a with _ | _
    · simp [strLt_conn hab hba]
    · simp
  · simp [strLt_asymm hab]

theorem strLt_neg_trans {a b c : Str} (hab : strLt a b = false)
    (hbc : strLt b c = false) : strLt a c = false := by
  rcases hac : strLt a c with _ | _
  · rfl
  · exfalso
    rcases hba : strLt b a with _ | _
    · have hab' : a = b := strLt_conn hab hba
      subst hab'
      rw [hac] at hbc
      simp at hbc
    · have : strLt b c = true := strLt_trans hba hac
      rw [this] at hbc
      simp at hbc

theorem maxStr_assoc (a b c : Str) : maxStr (maxStr a b) c = maxStr a (maxStr b c) := by
  rcases hab : strLt a b with _ | _ <;> rcases hbc : strLt b c with _ | _
  · simp [maxStr, hab, hbc, strLt_neg_trans hab hbc]
  · simp [maxStr, hab, hbc]
  · simp [maxStr, hab, hbc]
  · simp [maxStr, hab, hbc, strLt_trans hab hbc]

theorem strLt_nil_left : ∀ {d : Str}, d ≠ [] → strLt [] d = true := by
  intro d h; cases d with
  | nil => simp at h
  | cons c cs => simp [strLt]

theorem updateLatest_eq_maxStr (l d : Str) : updateLatest l d = maxStr l d := by
  unfold updateLatest maxStr
  rcases hl : decide (l = []) with _ | _
  · simp only [decide_eq_false_iff_not] at hl
    simp [hl]
  · simp only [decide_eq_true_eq] at hl
    subst hl
    rcases hd : decide (d = []) with _ | _
    · simp only [decide_eq_false_iff_not] at hd
      simp [strLt_nil_left hd]
    · simp only [decide_eq_true_eq] at hd
      subst hd
      simp [strLt]

theorem updateLatest_right_comm (l d e : Str) :
    updateLatest (updateLatest l d) e = updateLatest (updateLatest l e) d := by
  simp only [updateLatest_eq_maxStr]
  rw [maxStr_assoc, maxStr_assoc, maxStr_comm d e]

theorem addFile_right_comm (ts : TotalSpace) (a b : SummaryFile) :
    addFile (addFile ts a) b = addFile (addFile ts b) a := by
  rcases a with ⟨ta, sa, da⟩
  rcases b with ⟨tb, sb, db⟩
  cases ta <;> cases tb <;>
    simp [addFile, updateLatest_right_comm, Nat.add_right_comm]

theorem summarize_perm_foldl : ∀ {l l' : List SummaryFile}, List.Perm l l' →
    ∀ ts : TotalSpace, l.foldl addFile ts = l'.foldl addFile ts := by
  intro l l' p
  induction p with
  | nil => intro ts; rfl
  | cons x _ ih =>
    intro ts
    simp only [List.foldl_cons]
    exact ih (addFile ts x)
  | swap x y l =>
    intro ts
    simp only [List.foldl_cons]
    rw [addFile_right_comm]
  | trans _ _ ih₁ ih₂ =>
    intro ts
    rw [ih₁ ts, ih₂ ts]

theorem splitOnChar_ne_nil (sep : Char) : ∀ s : Str, splitOnChar sep s ≠ [] := by
  intro s
  cases s with
  | nil => simp [splitOnChar]
  | cons c cs =>
    simp only [splitOnChar]
    by_cases h : c = sep
    · simp [h]
    · simp only [if_neg h]
      cases hr : splitOnChar sep cs <;> simp

theorem splitOnChar_headD (sep : Char) : ∀ s : Str,
    (splitOnChar sep s).headD [] = s.takeWhile (fun c => c ≠ sep) := by
  intro s
  induction s with
  | nil => rfl
  | cons c cs ih =>
    by_cases h : c = sep
    · simp [splitOnChar, h, List.takeWhile_cons]
    · cases hr : splitOnChar sep cs with
      | nil => exact absurd hr (splitOnChar_ne_nil sep cs)
      | cons r rs =>
        rw [hr] at ih
        simp only [List.headD] at ih
        simp only [splitOnChar, if_neg h, hr, List.headD, List.takeWhile_cons]
        simp [h, ih]

theorem createQueries_head (u : UserDoc) (types : List Str) (searchText sort : Str)
    (limit : Option Nat) :
    ∃ rest, createQueries u types searchText sort limit = accessQuery u :: rest := by
  unfold createQueries accessQuery
  repeat' split
  all_goals exact ⟨_, rfl⟩

/-- C4: `getFileType` classifies deterministically — `a.pdf` is a document,
`a.JPG` an image with the extension folded to lowercase, `a.xyz` falls to
`other` keeping the extension — but for a name with no dot at all the code
returns the whole lowercased name as the extension instead of the empty
string its own doc comment (and the spec) promises: `getFileType("noext")`
is `(other, "noext")`, not `(other, "")`. -/
theorem c4_getFileType_eval :
    getFileType (str "a.pdf") = ⟨str "document", str "pdf"⟩ ∧
    getFileType (str "a.JPG") = ⟨str "image", str "jpg"⟩ ∧
    getFileType (str "a.xyz") = ⟨str "other", str "xyz"⟩ ∧
    getFileType (str "noext") = ⟨str "other", str "noext"⟩ ∧
    getFileType (str "noext") ≠ ⟨str "other", []⟩ := by
  refine ⟨by decide, by decide, by decide, by decide, by decide⟩

/-- C7: the aggregation of `getTotalSpaceUsed` applied to no records yields
zero size and empty latest date for every category, zero total, and the
fixed 2 GiB capacity constant; and the aggregate of any record list is
invariant under permutation of the list. -/
theorem c7_summarize_empty_and_perm :
    summarize [] =
      { image := ⟨0, []⟩, document := ⟨0, []⟩, video := ⟨0, []⟩,
        audio := ⟨0, []⟩, other := ⟨0, []⟩, used := 0, all := 2147483648 } ∧
    ∀ l l' : List SummaryFile, List.Perm l l' → summarize l = summarize l' := by
  constructor
  · rfl
  · intro l l' p
    exact summarize_perm_foldl p initialTotalSpace

theorem c7_summarize_empty_and_perm_witness :
    summarize [] =
      { image := ⟨0, []⟩, document := ⟨0, []⟩, video := ⟨0, []⟩,
        audio := ⟨0, []⟩, other := ⟨0, []⟩, used := 0, all := 2147483648 } ∧
    summarize [⟨FileType.document, 10, str "2024-01-02"⟩, ⟨FileType.image, 5, str "2024-03-04"⟩] =
      summarize [⟨FileType.image, 5, str "2024-03-04"⟩, ⟨FileType.document, 10, str "2024-01-02"⟩] :=
  ⟨c7_summarize_empty_and_perm.1,
   c7_summarize_empty_and_perm.2 _ _ (List.Perm.swap _ _ _)⟩

/-- C5: every filter list `createQueries` builds contains the
owner-or-shared access predicate, and a store holding only a document that
the caller neither owns nor appears in the shared list of yields the empty
result, whatever the other query arguments are. -/
theorem c5_access_predicate (u : UserDoc) (types : List Str) (searchText sort : Str)
    (limit : Option Nat) (d : FileDoc)
    (hown : d.owner ≠ u.id) (hshared : u.email ∉ d.users) :
    accessQuery u ∈ createQueries u types searchText sort limit ∧
    listDocuments (createQueries u types searchText sort limit) [d] = [] := by
  obtain ⟨rest, hq⟩ := createQueries_head u types searchText sort limit
  rw [hq]
  have h1 : matchesFilter d (FileQuery.equalQ (str "owner") [u.id]) = false := by
    have hv : docStrVal d (str "owner") = some d.owner := rfl
    simp [matchesFilter, hv, Ne.symm hown]
  have h2 : matchesFilter d (FileQuery.containsQ (str "users") [u.email]) = false := by
    simp only [matchesFilter]
    simp [hshared]
  have hacc : matchesFilter d (accessQuery u) = false := by
    show matchesAnyFilter d
      [FileQuery.equalQ (str "owner") [u.id],
       FileQuery.containsQ (str "users") [u.email]] = false
    simp only [matchesAnyFilter, h1, h2, Bool.or_false, Bool.false_or]
  refine ⟨List.mem_cons_self _ _, ?_⟩
  have hall : ((accessQuery u :: rest).all fun q => matchesFilter d q) = false := by
    rw [List.all_cons, hacc, Bool.false_and]
  unfold listDocuments
  simp only [List.filter_cons, hall, Bool.false_eq_true, if_false, List.filter_nil]
  cases firstLimit (accessQuery u :: rest) <;> simp

theorem c5_access_predicate_witness :
    accessQuery user0 ∈ createQueries user0 [] [] (str "size-desc") none ∧
    listDocuments (createQueries user0 [] [] (str "size-desc") none) [otherDoc] = [] :=
  c5_access_predicate user0 [] [] (str "size-desc") none otherDoc (by decide) (by decide)

/-- C6 counterexample: for the sort string `"a-b-asc"` — which has the form
`field-direction` with field `a-b` and direction `asc` — the claim (split on
the last dash, `asc` gives an ascending predicate) requires the built filter
list to contain an ascending order predicate on `a-b`; the code instead
splits at the first dash and appends a descending predicate on `a`. -/
theorem c6_counterexample :
    createQueries user0 [] [] (str "a-b-asc") none =
      [accessQuery user0, FileQuery.orderDescQ (str "a")] ∧
    FileQuery.orderAscQ (str "a-b") ∉
      [accessQuery user0, FileQuery.orderDescQ (str "a")] := by
  refine ⟨rfl, ?_⟩
  intro h
  rcases List.mem_cons.mp h with h' | h'
  · simp [accessQuery] at h'
  · rcases List.mem_cons.mp h' with h'' | h''
    · simp at h''
    · simp at h''

/-- C6 (amended): `createQueries` splits the sort string on every dash and
destructures the first two fields, so the order predicate it appends is on
the text before the FIRST dash; it is ascending exactly when the second
dash-separated field is `asc`, and descending for every other direction
value (including invalid ones such as `weird`). -/
theorem c6_sort_first_dash (u : UserDoc) (types : List Str) (searchText : Str)
    (limit : Option Nat) (sort : Str) (h : sort ≠ []) :
    (createQueries u types searchText sort limit).getLast? = some
      (if (splitOnChar '-' sort).get? 1 = some (str "asc")
        then FileQuery.orderAscQ (sort.takeWhile (fun c => c ≠ '-'))
        else FileQuery.orderDescQ (sort.takeWhile (fun c => c ≠ '-'))) := by
  simp only [createQueries]
  rw [if_pos h, List.getLast?_concat, splitOnChar_headD]

theorem c6_sort_first_dash_witness :
    (createQueries user0 [] [] (str "size-asc") none).getLast? =
      some (FileQuery.orderAscQ (str "size")) ∧
    (createQueries user0 [] [] (str "size-weird") none).getLast? =
      some (FileQuery.orderDescQ (str "size")) := by
  constructor
  · rw [c6_sort_first_dash user0 [] [] none (str "size-asc") (by decide)]
    rfl
  · rw [c6_sort_first_dash user0 [] [] none (str "size-weird") (by decide)]
    rfl

/-- C1 counterexample: with the blob write succeeding, the metadata insert
rejecting with a metadata error, and the compensating delete also rejecting,
`uploadFile` does not surface the originating metadata error — the delete
rejection escapes the `.catch` handler before `handleError` can rethrow the
metadata error, so the claim that the metadata error reaches the caller for
every failed metadata write is false. -/
theorem c1_counterexample :
    (uploadFile cfg0
        ⟨none, str "b1", some (StoreErr.metaWriteErr 3), some (StoreErr.blobDeleteErr 7)⟩
        ⟨str "a.txt", 10⟩ (str "u1") (str "acc1")).1 ≠
      Except.error (StoreErr.metaWriteErr 3) := by
  intro h
  simp [uploadFile] at h

/-- C1 (amended): whenever the blob write succeeds and the metadata insert
fails, `uploadFile` attempts to delete the step-1 blob as its final store
call before returning; it surfaces the originating metadata error whenever
that compensating delete succeeds, and surfaces the delete rejection
instead when the delete also fails (an error, never a success, in either
case). -/
theorem c1_compensation_attempted (cfg : AppwriteConfig) (env : UploadEnv)
    (file : FileInput) (ownerId accountId : Str) (e : StoreErr)
    (h₁ : env.createFileErr = none) (h₂ : env.createDocumentErr = some e) :
    (uploadFile cfg env file ownerId accountId).2.getLast? =
      some (StoreAction.deleteFile cfg.bucketId env.bucketFileId) ∧
    (env.deleteFileErr = none →
      (uploadFile cfg env file ownerId accountId).1 = Except.error e) ∧
    (∀ e', env.deleteFileErr = some e' →
      (uploadFile cfg env file ownerId accountId).1 = Except.error e') := by
  rcases env with ⟨cfe, bid, cde, dfe⟩
  cases h₁
  cases h₂
  cases dfe <;> simp [uploadFile]

theorem c1_compensation_attempted_witness :
    (uploadFile cfg0 ⟨none, str "b9", some (StoreErr.metaWriteErr 3), none⟩
        ⟨str "a.txt", 10⟩ (str "u1") (str "acc1")).2.getLast? =
      some (StoreAction.deleteFile (str "bucket") (str "b9")) ∧
    (uploadFile cfg0 ⟨none, str "b9", some (StoreErr.metaWriteErr 3), none⟩
        ⟨str "a.txt", 10⟩ (str "u1") (str "acc1")).1 =
      Except.error (StoreErr.metaWriteErr 3) :=
  ⟨(c1_compensation_attempted cfg0
      ⟨none, str "b9", some (StoreErr.metaWriteErr 3), none⟩
      ⟨str "a.txt", 10⟩ (str "u1") (str "acc1") (StoreErr.metaWriteErr 3) rfl rfl).1,
   (c1_compensation_attempted cfg0
      ⟨none, str "b9", some (StoreErr.metaWriteErr 3), none⟩
      ⟨str "a.txt", 10⟩ (str "u1") (str "acc1") (StoreErr.metaWriteErr 3) rfl rfl).2.1 rfl⟩

/-- C2 counterexample: when the metadata insert fails with a metadata error
and the compensating delete fails too, the upload surfaces only the delete
rejection — it does not surface the original metadata error, and there is no
orphaned-blob warning of any kind in the code — so the claimed
"both the metadata error and a secondary orphaned-blob warning" outcome does
not exist. -/
theorem c2_counterexample :
    (uploadFile cfg0
        ⟨none, str "b2", some (StoreErr.metaWriteErr 5), some (StoreErr.blobDeleteErr 9)⟩
        ⟨str "b.txt", 4⟩ (str "u2") (str "acc2")).1 =
      Except.error (StoreErr.blobDeleteErr 9) ∧
    (uploadFile cfg0
        ⟨none, str "b2", some (StoreErr.metaWriteErr 5), some (StoreErr.blobDeleteErr 9)⟩
        ⟨str "b.txt", 4⟩ (str "u2") (str "acc2")).1 ≠
      Except.error (StoreErr.metaWriteErr 5) := by
  refine ⟨rfl, ?_⟩
  intro h
  simp [uploadFile] at h

/-- C2 (amended): for every upload whose metadata write fails, the
compensating blob delete is attempted and the call never returns success:
it surfaces the metadata error when the delete succeeds and the delete
rejection when the delete fails — but only ever the one error, with no
separate orphaned-blob warning. -/
theorem c2_no_silent_success (cfg : AppwriteConfig) (env : UploadEnv)
    (file : FileInput) (ownerId accountId : Str) (e : StoreErr)
    (h₁ : env.createFileErr = none) (h₂ : env.createDocumentErr = some e) :
    StoreAction.deleteFile cfg.bucketId env.bucketFileId ∈
      (uploadFile cfg env file ownerId accountId).2 ∧
    (uploadFile cfg env file ownerId accountId).1 =
      Except.error (match env.deleteFileErr with | none => e | some e' => e') ∧
    ∀ r, (uploadFile cfg env file ownerId accountId).1 ≠ Except.ok r := by
  rcases env with ⟨cfe, bid, cde, dfe⟩
  cases h₁
  cases h₂
  cases dfe <;> simp [uploadFile]

theorem c2_no_silent_success_witness :
    StoreAction.deleteFile (str "bucket") (str "b3") ∈
      (uploadFile cfg0 ⟨none, str "b3", some (StoreErr.metaWriteErr 4), some (StoreErr.blobDeleteErr 8)⟩
        ⟨str "c.txt", 2⟩ (str "u3") (str "acc3")).2 ∧
    (uploadFile cfg0 ⟨none, str "b3", some (StoreErr.metaWriteErr 4), some (StoreErr.blobDeleteErr 8)⟩
        ⟨str "c.txt", 2⟩ (str "u3") (str "acc3")).1 =
      Except.error (StoreErr.blobDeleteErr 8) :=
  ⟨(c2_no_silent_success cfg0
      ⟨none, str "b3", some (StoreErr.metaWriteErr 4), some (StoreErr.blobDeleteErr 8)⟩
      ⟨str "c.txt", 2⟩ (str "u3") (str "acc3") (StoreErr.metaWriteErr 4) rfl rfl).1,
   (c2_no_silent_success cfg0
      ⟨none, str "b3", some (StoreErr.metaWriteErr 4), some (StoreErr.blobDeleteErr 8)⟩
      ⟨str "c.txt", 2⟩ (str "u3") (str "acc3") (StoreErr.metaWriteErr 4) rfl rfl).2.1⟩

/-- C3: every upload either throws or returns the fully populated file
document (no partially populated record exists); and a successful 10-byte
upload of `a.txt` for owner `u1` yields a record with type `document`,
extension `txt`, size `10`, and owner `u1` — type and extension derived from
the stored name, size the stored blob's size, owner the `ownerId`
argument. -/
theorem c3_complete_record_or_error :
    (∀ (cfg : AppwriteConfig) (env : UploadEnv) (file : FileInput) (ownerId accountId : Str),
      (∃ e, (uploadFile cfg env file ownerId accountId).1 = Except.error e) ∨
      (uploadFile cfg env file ownerId accountId).1 =
        Except.ok (mkFileDocument cfg ⟨env.bucketFileId, file.name, file.size⟩ ownerId accountId)) ∧
    (∀ (cfg : AppwriteConfig) (id accountId : Str),
      (uploadFile cfg ⟨none, id, none, none⟩ ⟨str "a.txt", 10⟩ (str "u1") accountId).1 =
        Except.ok (mkFileDocument cfg ⟨id, str "a.txt", 10⟩ (str "u1") accountId) ∧
      (mkFileDocument cfg ⟨id, str "a.txt", 10⟩ (str "u1") accountId).type = str "document" ∧
      (mkFileDocument cfg ⟨id, str "a.txt", 10⟩ (str "u1") accountId).extension = str "txt" ∧
      (mkFileDocument cfg ⟨id, str "a.txt", 10⟩ (str "u1") accountId).size = 10 ∧
      (mkFileDocument cfg ⟨id, str "a.txt", 10⟩ (str "u1") accountId).owner = str "u1") := by
  constructor
  · intro cfg env file ownerId accountId
    rcases env with ⟨cfe, bid, cde, dfe⟩
    cases cfe with
    | some e => exact Or.inl ⟨e, rfl⟩
    | none =>
      cases cde with
      | none => exact Or.inr rfl
      | some e => cases dfe with
        | none => exact Or.inl ⟨e, rfl⟩
        | some e' => exact Or.inl ⟨e', rfl⟩
  · intro cfg id accountId
    exact ⟨rfl, rfl, rfl, rfl, rfl⟩

/-- C9: every successfully uploaded file document has an empty shared-with
(`users`) list — the record is inserted with `users: []`, so nobody besides
the owner has access until a share-list update. -/
theorem c9_fresh_upload_users_empty (cfg : AppwriteConfig) (env : UploadEnv)
    (file : FileInput) (ownerId accountId : Str) (r : FileDoc)
    (h : (uploadFile cfg env file ownerId accountId).1 = Except.ok r) :
    r.users = [] := by
  rcases env with ⟨cfe, bid, cde, dfe⟩
  cases cfe with
  | some e => simp [uploadFile] at h
  | none =>
    cases cde with
    | none =>
      simp [uploadFile] at h
      rw [← h]
      rfl
    | some e => cases dfe <;> simp [uploadFile] at h

theorem c9_fresh_upload_users_empty_witness :
    (mkFileDocument cfg0 ⟨str "b1", str "a.txt", 10⟩ (str "u1") (str "acc1")).users = [] :=
  c9_fresh_upload_users_empty cfg0 ⟨none, str "b1", none, none⟩ ⟨str "a.txt", 10⟩
    (str "u1") (str "acc1")
    (mkFileDocument cfg0 ⟨str "b1", str "a.txt", 10⟩ (str "u1") (str "acc1")) rfl

/-- C8: whenever `deleteFile` returns its success status, both remote
deletes were issued and both succeeded — the metadata record and the backing
blob are both removed, leaving neither a dangling record nor an orphaned
blob. -/
theorem c8_delete_removes_both (cfg : AppwriteConfig) (env : DeleteEnv)
    (fileId bucketFileId : Str) (s : DeleteStatus)
    (h : (deleteFile cfg env fileId bucketFileId).1 = Except.ok s) :
    env.deleteDocumentErr = none ∧ env.deleteFileErr = none ∧
    DeleteAction.deleteDocument cfg.databaseId cfg.filesCollectionId fileId ∈
      (deleteFile cfg env fileId bucketFileId).2 ∧
    DeleteAction.deleteFile cfg.bucketId bucketFileId ∈
      (deleteFile cfg env fileId bucketFileId).2 := by
  rcases env with ⟨dde, dfe⟩
  cases dde <;> cases dfe <;> simp_all [deleteFile]

theorem c8_delete_removes_both_witness :
    (none : Option StoreErr) = none ∧ (none : Option StoreErr) = none ∧
    DeleteAction.deleteDocument (str "db") (str "files") (str "f1") ∈
      (deleteFile cfg0 ⟨none, none⟩ (str "f1") (str "bf1")).2 ∧
    DeleteAction.deleteFile (str "bucket") (str "bf1") ∈
      (deleteFile cfg0 ⟨none, none⟩ (str "f1") (str "bf1")).2 :=
  c8_delete_removes_both cfg0 ⟨none, none⟩ (str "f1") (str "bf1") ⟨str "success"⟩ rfl

/-- C10: `deleteFile` only attempts the blob delete after the metadata
delete has succeeded: when the metadata delete rejects, the call rethrows
that error and issues no storage delete at all, so the blob is untouched
while its record still exists. -/
theorem c10_no_blob_delete_when_db_fails (cfg : AppwriteConfig) (env : DeleteEnv)
    (fileId bucketFileId : Str) (e : StoreErr)
    (h : env.deleteDocumentErr = some e) :
    (deleteFile cfg env fileId bucketFileId).1 = Except.error e ∧
    ∀ b f, DeleteAction.deleteFile b f ∉ (deleteFile cfg env fileId bucketFileId).2 := by
  rcases env with ⟨dde, dfe⟩
  cases h
  simp [deleteFile]

theorem c10_no_blob_delete_when_db_fails_witness :
    (deleteFile cfg0 ⟨some (StoreErr.metaDeleteErr 2), none⟩ (str "f2") (str "bf2")).1 =
      Except.error (StoreErr.metaDeleteErr 2) ∧
    ∀ b f, DeleteAction.deleteFile b f ∉
      (deleteFile cfg0 ⟨some (StoreErr.metaDeleteErr 2), none⟩ (str "f2") (str "bf2")).2 :=
  c10_no_blob_delete_when_db_fails cfg0 ⟨some (StoreErr.metaDeleteErr 2), none⟩
    (str "f2") (str "bf2") (StoreErr.metaDeleteErr 2) rfl
